import Mathlib

/-!
# Verification of the movie-crawler extraction engine

A shallow embedding of `movie_crawler.py`: an HTML node model standing for the
BeautifulSoup parse tree, the CSS-selector cascades used by the script, the
per-card field extraction (`parse_movie_card`), the card locator and the
page-iteration pipeline (`scrape_pages`), together with theorems about the
behaviour of these functions.

Modelling conventions:
- A parsed document is a `Node` tree; `Node.text` stands for a NavigableString.
- `card.select(sel)` / `select_one` / `find` / `find_all` are modelled by
  pre-order traversals; descendant combinators match against ancestors inside
  the searched subtree (the container itself included).
- `get_text(strip=True)` concatenates the stripped descendant strings.
- Python dicts (insertion-ordered) are association lists `Dict`;
  `dictSet` updates an existing key in place and appends a fresh key at the
  end, exactly as CPython dict assignment does.
- `urljoin` models `urllib.parse.urljoin` restricted to the absolute,
  path-less base URL the script uses.
- Python `str.isalpha` is modelled on ASCII letters plus the CJK ideograph
  block actually exercised by the script's inputs; `str.strip`, `str.lower`
  are modelled by their ASCII counterparts `String.trim`, `String.toLower`.
-/

set_option autoImplicit false

namespace MovieCrawler

/-- An HTML node: an element with a tag name, attributes and children, or a
text node. -/
inductive Node where
  | elem (tag : String) (attrs : List (String × String)) (children : List Node)
  | text (s : String)

/-- First value bound to attribute `k` on the node (`none` on text nodes). -/
def getAttr (n : Node) (k : String) : Option String :=
  match n with
  | .text _ => none
  | .elem _ attrs _ => (attrs.find? (fun p => p.1 = k)).map (fun p => p.2)

/-- `has_attr`. -/
def hasAttr (n : Node) (k : String) : Bool :=
  (getAttr n k).isSome

/-- The node's tag name (`""` for text nodes). -/
def tagOf (n : Node) : String :=
  match n with
  | .elem t _ _ => t
  | .text _ => ""

/-- Strip leading and trailing whitespace from a character list
(`str.strip`, on the ASCII whitespace the pages contain). -/
def trimL (cs : List Char) : List Char :=
  ((cs.dropWhile Char.isWhitespace).reverse.dropWhile Char.isWhitespace).reverse

/-- `str.strip`, computed structurally on the character list. -/
def strTrim (s : String) : String :=
  String.mk (trimL s.toList)

/-- `str.lower`, computed structurally on the character list. -/
def strToLower (s : String) : String :=
  String.mk (s.toList.map Char.toLower)

/-- Does `s` start with `pre`? -/
def startsWithL (s pre : String) : Bool :=
  pre.toList.isPrefixOf s.toList

/-- Split a character list on whitespace, dropping empty words. -/
def wordsL : List Char → List Char → List String
  | [], cur => if cur.isEmpty then [] else [String.mk cur.reverse]
  | c :: rest, cur =>
    if c.isWhitespace then
      if cur.isEmpty then wordsL rest [] else String.mk cur.reverse :: wordsL rest []
    else wordsL rest (c :: cur)

/-- The whitespace-separated tokens of the `class` attribute. -/
def classList (n : Node) : List String :=
  wordsL (((getAttr n "class").getD "").toList) []

mutual
/-- All text-node strings below (and at) `n`, in document order. -/
def stringsOf : Node → List String
  | .text s => [s]
  | .elem _ _ cs => stringsOfList cs
def stringsOfList : List Node → List String
  | [] => []
  | c :: cs => stringsOf c ++ stringsOfList cs
end

/-- `get_text(strip=True)`: each descendant string stripped, concatenated. -/
def getTextStrip (n : Node) : String :=
  String.join ((stringsOf n).map strTrim)

mutual
/-- Pre-order list of the nodes of a subtree, each paired with its list of
ancestors (nearest first); `anc` are the ancestors already above the subtree. -/
def withAnc (anc : List Node) : Node → List (List Node × Node)
  | .text s => [(anc, .text s)]
  | .elem t a cs => (anc, .elem t a cs) :: withAncList (.elem t a cs :: anc) cs
def withAncList (anc : List Node) : List Node → List (List Node × Node)
  | [] => []
  | c :: cs => withAnc anc c ++ withAncList anc cs
end

/-- The strict descendants of `root`, paired with their ancestors inside the
subtree (nearest first, `root` included as outermost). -/
def descendantsWithAnc (root : Node) : List (List Node × Node) :=
  match root with
  | .text _ => []
  | .elem _ _ cs => withAncList [root] cs

/-- The strict descendants of `root` in document (pre-)order. -/
def descendants (root : Node) : List Node :=
  (descendantsWithAnc root).map (fun p => p.2)

/-- `find(tag)`: first descendant element with the given tag. -/
def findTag (root : Node) (tg : String) : Option Node :=
  (descendants root).find? (fun n =>
    match n with
    | .elem t _ _ => t = tg
    | .text _ => false)

/-- `find_all([tags], limit)`: the first `limit` descendant elements whose tag
is in `tags`. -/
def findAllTagsLimited (root : Node) (tags : List String) (limit : Nat) : List Node :=
  (((descendants root).filter (fun n =>
    match n with
    | .elem t _ _ => tags.contains t
    | .text _ => false))).take limit

/-- A simple CSS selector: optional tag, required classes, required attributes
(the only forms `movie_crawler.py` uses). -/
structure SimpleSel where
  tag : Option String
  classes : List String
  attrs : List String

/-- A compound selector: a descendant chain of simple selectors. -/
abbrev Sel := List SimpleSel

/-- Does node `n` match a simple selector? -/
def matchesSimple (s : SimpleSel) (n : Node) : Bool :=
  match n with
  | .text _ => false
  | .elem t _ _ =>
    (match s.tag with
     | none => true
     | some tg => tg = t)
    && s.classes.all (fun c => (classList n).contains c)
    && s.attrs.all (fun a => hasAttr n a)

/-- Match a reversed descendant chain against an ancestor list
(nearest ancestor first): each selector must match some ancestor, in order. -/
def ancestorsMatch : List SimpleSel → List Node → Bool
  | [], _ => true
  | _ :: _, [] => false
  | s :: ss, a :: as => (matchesSimple s a && ancestorsMatch ss as) || ancestorsMatch (s :: ss) as

/-- `card.select(sel)`: every strict descendant matching the chain, in
document order. -/
def selectAll (root : Node) (sel : Sel) : List Node :=
  match sel.reverse with
  | [] => []
  | sLast :: restRev =>
    (descendantsWithAnc root).filterMap (fun p =>
      if matchesSimple sLast p.2 && ancestorsMatch restRev p.1 then some p.2 else none)

/-- `card.select_one(sel)`: first match in document order. -/
def selectOne (root : Node) (sel : Sel) : Option Node :=
  (selectAll root sel).head?

/-! ## URL resolution (`urllib.parse.urljoin` against the fixed base) -/

/-- `BASE` as in the script. -/
def BASE : String := "https://ssr1.scrape.center"

/-- Characters allowed after the first letter of a URL scheme. -/
def isSchemeChar (c : Char) : Bool :=
  c.isAlpha || c.isDigit || c = '+' || c = '-' || c = '.'

/-- Scan a character list for a leading `scheme:` prefix. -/
def looksScheme : List Char → Bool
  | [] => false
  | c :: rest => if c = ':' then true else isSchemeChar c && looksScheme rest

/-- Does the character list start with a URL scheme (letter, scheme chars,
then a colon)? -/
def hasSchemeL : List Char → Bool
  | [] => false
  | c :: rest => c.isAlpha && looksScheme rest

/-- Does the string start with a URL scheme, i.e. is it an absolute URL (or at
least not a relative reference)? -/
def hasScheme (s : String) : Bool :=
  hasSchemeL s.toList

/-- Modelled after `urllib.parse.urljoin(base, url)`, restricted to the shapes
the script exercises: `base` is an absolute http(s) URL with empty path (the
constant `BASE`). A url carrying its own scheme is returned as is; a
protocol-relative `//…` url inherits the base's scheme; otherwise the url is
resolved against the base. -/
def urljoin (base url : String) : String :=
  if url = "" then base
  else if hasScheme url then url
  else if startsWithL url "//" then String.mk (base.toList.takeWhile (fun c => c ≠ ':')) ++ ":" ++ url
  else if startsWithL url "/" then base ++ url
  else base ++ "/" ++ url

/-! ## Field extraction (`parse_movie_card`) -/

/-- The title selector cascade of the script:
`['h2', '.name', 'a[title]', 'a.movie-name', '.el-card__header h2']`. -/
def title_selectors : List Sel :=
  [ [⟨some "h2", [], []⟩],
    [⟨none, ["name"], []⟩],
    [⟨some "a", [], ["title"]⟩],
    [⟨some "a", ["movie-name"], []⟩],
    [⟨none, ["el-card__header"], []⟩, ⟨some "h2", [], []⟩] ]

/-- The title cascade loop: for the first selector whose node yields a
non-empty result, prefer a non-blank `title` attribute over the node text;
a matching node with empty result overwrites the accumulator and the loop
goes on. -/
def extract_title_go (card : Node) : List Sel → String → String
  | [], acc => acc
  | sel :: rest, acc =>
    match selectOne card sel with
    | none => extract_title_go card rest acc
    | some node =>
      let t :=
        match getAttr node "title" with
        | some tv => if strTrim tv = "" then getTextStrip node else strTrim tv
        | none => getTextStrip node
      if t = "" then extract_title_go card rest t else t

/-- Step 1 of `parse_movie_card`: the title cascade. -/
def extract_title (card : Node) : String :=
  extract_title_go card title_selectors ""

/-- The anchor chosen for the detail link: `select_one('a[href]')`, else
`find('a')`. -/
def detailAnchor (card : Node) : Option Node :=
  match selectOne card [⟨some "a", [], ["href"]⟩] with
  | some n => some n
  | none => findTag card "a"

/-- Step 2 of `parse_movie_card`: if the chosen anchor has an `href`, resolve
it against `BASE`. -/
def extract_detail_url (card : Node) : String :=
  match detailAnchor card with
  | none => ""
  | some n =>
    match getAttr n "href" with
    | some h => urljoin BASE h
    | none => ""

/-- Python `x or y or z` over optional strings: the first present, non-empty
value. -/
def firstTruthy : List (Option String) → Option String
  | [] => none
  | none :: rest => firstTruthy rest
  | some s :: rest => if s = "" then firstTruthy rest else some s

/-- Step 3 of `parse_movie_card`: `find('img')`, then
`img.get('src') or img.get('data-src') or img.get('data-original')`,
resolved against `BASE` when truthy. -/
def extract_image_url (card : Node) : String :=
  match findTag card "img" with
  | none => ""
  | some img =>
    match firstTruthy [getAttr img "src", getAttr img "data-src", getAttr img "data-original"] with
    | some src => urljoin BASE src
    | none => ""

/-- The rating selector cascade of the script:
`['.score', '.rating', '.en .score', '.info .score', '.score-number']`. -/
def rating_selectors : List Sel :=
  [ [⟨none, ["score"], []⟩],
    [⟨none, ["rating"], []⟩],
    [⟨none, ["en"], []⟩, ⟨none, ["score"], []⟩],
    [⟨none, ["info"], []⟩, ⟨none, ["score"], []⟩],
    [⟨none, ["score-number"], []⟩] ]

/-- The rating cascade loop: text of the first matching node (the loop breaks
on a match even when the node's text is empty). -/
def rating_cascade (card : Node) : List Sel → String
  | [] => ""
  | sel :: rest =>
    match selectOne card sel with
    | none => rating_cascade card rest
    | some n => getTextStrip n

/-- Step 4 of `parse_movie_card`: the rating cascade, then the `data-score`
attribute of the container when the cascade produced the empty string. -/
def extract_rating (card : Node) : String :=
  if rating_cascade card rating_selectors = "" then (getAttr card "data-score").getD ""
  else rating_cascade card rating_selectors

/-- The types selector cascade of the script:
`['.types', '.genre', '.genres', '.categories', '.meta', '.info .tags']`. -/
def type_selectors : List Sel :=
  [ [⟨none, ["types"], []⟩],
    [⟨none, ["genre"], []⟩],
    [⟨none, ["genres"], []⟩],
    [⟨none, ["categories"], []⟩],
    [⟨none, ["meta"], []⟩],
    [⟨none, ["info"], []⟩, ⟨none, ["tags"], []⟩] ]

/-- The non-empty stripped texts of the nodes a selector matches: exactly what
one iteration of the types loop appends to `types_found`. -/
def selTexts (card : Node) (sel : Sel) : List String :=
  (selectAll card sel).filterMap (fun n =>
    let t := getTextStrip n
    if t = "" then none else some t)

/-- The types cascade loop: per selector, when it matches at least one node
its non-empty texts are appended to the accumulator, and the loop breaks as
soon as the accumulator is non-empty. -/
def collectTypes (card : Node) : List Sel → List String → List String
  | [], acc => acc
  | sel :: rest, acc =>
    if (selectAll card sel).isEmpty then collectTypes card rest acc
    else
      let acc2 := acc ++ selTexts card sel
      if acc2.isEmpty then collectTypes card rest acc2 else acc2

/-- Python `str.isalpha`, restricted to the character ranges the script meets:
ASCII letters and the CJK unified-ideograph block (both satisfy `isalpha`). -/
def pyIsAlpha (c : Char) : Bool :=
  c.isAlpha || ('一' ≤ c && c ≤ '鿿')

/-- Is `c` a CJK unified ideograph (`'一' <= c <= '鿿'`)? -/
def isCJKChar (c : Char) : Bool :=
  '一' ≤ c && c ≤ '鿿'

/-- The acceptance test of the types heuristic, with Python's operator
precedence kept: `txt and 1 <= len(txt) <= 40 and any(isalpha) or any(CJK)`
groups as `(txt and 1 <= len(txt) <= 40 and any(isalpha)) or any(CJK)`. -/
def typeHeuristicAccepts (txt : String) : Bool :=
  (!(txt == "") && Nat.ble 1 txt.length && Nat.ble txt.length 40 && txt.toList.any pyIsAlpha)
    || txt.toList.any isCJKChar

/-- The types heuristic: `find_all(['span', 'p'], limit=6)`, keep the stripped
texts passing `typeHeuristicAccepts`. -/
def heuristicTypes (card : Node) : List String :=
  ((findAllTagsLimited card ["span", "p"] 6).map getTextStrip).filter typeHeuristicAccepts

/-- The per-entry normalisation of the types post-processing:
`t.replace('\n', ' ').strip()` (the pattern is a single character, so the
replacement is a character map). -/
def normalizeType (t : String) : String :=
  strTrim (String.mk (t.toList.map (fun c => if c = '\n' then ' ' else c)))

/-- The hardcoded noise denylist `['new', '2020', '2021']`. -/
def noiseDenylist : List String := ["new", "2020", "2021"]

/-- The types cleaning loop: normalise each entry, keep it when non-empty and
its lowercase form is not in the denylist. -/
def cleanTypes (l : List String) : List String :=
  l.filterMap (fun t0 =>
    let t := normalizeType t0
    if !(t == "") && !(noiseDenylist.contains (strToLower t)) then some t else none)

/-- `dict.fromkeys`-style deduplication: keep first occurrences, in order. -/
def dedupFirstGo : List String → List String → List String
  | [], _ => []
  | x :: xs, seen => if seen.contains x then dedupFirstGo xs seen else x :: dedupFirstGo xs (x :: seen)

/-- Deduplicate preserving first-seen order. -/
def dedupFirst (l : List String) : List String :=
  dedupFirstGo l []

/-- Step 5 of `parse_movie_card`: the types cascade, the bounded heuristic
when the cascade collected nothing, then clean, deduplicate and join with
`';'`. -/
def extract_types (card : Node) : String :=
  let found := collectTypes card type_selectors []
  let found2 := if found.isEmpty then heuristicTypes card else found
  if found2.isEmpty then "" else String.intercalate ";" (dedupFirst (cleanTypes found2))

/-! ## Records as insertion-ordered dicts -/

/-- A Python dict value: the script stores strings and the page integer. -/
inductive Val where
  | str (s : String)
  | int (n : Int)
deriving DecidableEq, Repr

/-- A Python dict, as its insertion-ordered association list. -/
abbrev Dict := List (String × Val)

/-- CPython dict assignment `d[k] = v`: update an existing key in place,
append a fresh key at the end. -/
def dictSet : Dict → String → Val → Dict
  | [], k, v => [(k, v)]
  | (k1, v1) :: rest, k, v =>
    if k1 = k then (k1, v) :: rest else (k1, v1) :: dictSet rest k v

/-- Dict lookup. -/
def dictGet : Dict → String → Option Val
  | [], _ => none
  | (k1, v1) :: rest, k => if k1 = k then some v1 else dictGet rest k

/-- Lookup of a string value, defaulting to `""`. -/
def dgetStr (d : Dict) (k : String) : String :=
  match dictGet d k with
  | some (.str s) => s
  | _ => ""

/-- The keys of a dict, in insertion order. -/
def dictKeys (d : Dict) : List String :=
  d.map (fun p => p.1)

/-- `parse_movie_card`: the initial five-key dict, then the five extraction
steps in source order (title, detail_url, image_url, rating, types — each
assignment hits an existing key, so the key order is that of the literal). -/
def parse_movie_card (card : Node) : Dict :=
  let data : Dict :=
    [ ("title", .str ""), ("image_url", .str ""), ("rating", .str ""),
      ("types", .str ""), ("detail_url", .str "") ]
  let d1 := dictSet data "title" (.str (extract_title card))
  let d2 := dictSet d1 "detail_url" (.str (extract_detail_url card))
  let d3 := dictSet d2 "image_url" (.str (extract_image_url card))
  let d4 := dictSet d3 "rating" (.str (extract_rating card))
  dictSet d4 "types" (.str (extract_types card))

/-! ## Card location and the page pipeline (`scrape_pages`) -/

/-- The card selector cascade of the script:
`['.movie-item', '.el-card.movie-item', '.el-card', '.card', '.item', '.movie']`. -/
def card_selectors : List Sel :=
  [ [⟨none, ["movie-item"], []⟩],
    [⟨none, ["el-card", "movie-item"], []⟩],
    [⟨none, ["el-card"], []⟩],
    [⟨none, ["card"], []⟩],
    [⟨none, ["item"], []⟩],
    [⟨none, ["movie"], []⟩] ]

/-- The card cascade loop: the first selector matching at least one node
provides the card list. -/
def selectCards (soup : Node) : List Sel → List Node
  | [] => []
  | sel :: rest =>
    let found := selectAll soup sel
    if found.isEmpty then selectCards soup rest else found

/-- Is the node an `article`, `li` or `div` element? -/
def isALD (n : Node) : Bool :=
  match n with
  | .elem t _ _ => t = "article" || t = "li" || t = "div"
  | .text _ => false

/-- The card locator of `scrape_pages`: the selector cascade; when it finds
nothing, every `article`/`li`/`div` having both an `img` and an `a`
descendant (no nesting exclusion). -/
def locateCards (soup : Node) : List Node :=
  let cards := selectCards soup card_selectors
  if cards.isEmpty then
    ((descendants soup).filter isALD).filter
      (fun p => (findTag p "img").isSome && (findTag p "a").isSome)
  else cards

/-- The post-assembly title fallback: when the card has an `img` carrying an
`alt` attribute, the stripped `alt` becomes the title. -/
def titleAltFallback (c : Node) (d : Dict) : Dict :=
  match findTag c "img" with
  | none => d
  | some img =>
    match getAttr img "alt" with
    | none => d
    | some alt => dictSet d "title" (.str (strTrim alt))

/-- `parse_movie_card` with the page index attached (`data['page'] = i`). -/
def withPage (i : Nat) (c : Node) : Dict :=
  dictSet (parse_movie_card c) "page" (.int i)

/-- The record after the conditional alt-title fallback of the loop body. -/
def assembled (i : Nat) (c : Node) : Dict :=
  if dgetStr (withPage i c) "title" = "" then titleAltFallback c (withPage i c)
  else withPage i c

/-- The per-card body of the `scrape_pages` loop: `parse_movie_card`, attach
`page`, apply the alt-title fallback when the title is empty, and drop the
record (return `none`) when the title is still empty. -/
def processCard (i : Nat) (c : Node) : Option Dict :=
  if dgetStr (assembled i c) "title" = "" then none else some (assembled i c)

/-- The records one successfully fetched page contributes: the located cards,
processed in discovery order. -/
def pageRecords (parse : String → Node) (html : String) (i : Nat) : List Dict :=
  (locateCards (parse html)).filterMap (processCard i)

/-- The page indices of `range(start, end + 1)`. -/
def pageRange (start stop : Nat) : List Nat :=
  List.range' start (stop + 1 - start)

/-- The accumulator loop of `scrape_pages`: a falsy fetch result (`None` or
the empty body) skips the page, otherwise the page's records are appended. -/
def scrapeGo (fetch : Nat → Option String) (parse : String → Node) :
    List Nat → List Dict → List Dict
  | [], rows => rows
  | i :: is, rows =>
    match fetch i with
    | none => scrapeGo fetch parse is rows
    | some html =>
      if html = "" then scrapeGo fetch parse is rows
      else scrapeGo fetch parse is (rows ++ pageRecords parse html i)

/-- `scrape_pages(start, end)`, parametrised by the external fetcher and the
HTML parser (both collaborators in the spec's sense). -/
def scrape_pages (fetch : Nat → Option String) (parse : String → Node)
    (start stop : Nat) : List Dict :=
  scrapeGo fetch parse (pageRange start stop) []

/-- What one page contributes to the final list. -/
def pageContribution (fetch : Nat → Option String) (parse : String → Node)
    (i : Nat) : List Dict :=
  match fetch i with
  | none => []
  | some html => if html = "" then [] else pageRecords parse html i

/-- The CSV schema of `save_csv`:
`['title', 'image_url', 'rating', 'types', 'page', 'detail_url']`. -/
def csv_fieldnames : List String :=
  ["title", "image_url", "rating", "types", "page", "detail_url"]

/-! ## The observable control flow of one loop iteration

`scrape_pages` performs, per page, a fetch and — only when the fetch produced
a truthy body — the politeness sleep `time.sleep(0.6 + random.random() * 1.2)`;
the `continue` taken on a falsy body skips the sleep. `jitter i` stands for
the value `random.random()` returned on page `i`. -/

/-- An observable action of the pipeline loop. -/
inductive Event where
  | fetchPage (i : Nat)
  | sleep (d : ℚ)
deriving DecidableEq, Repr

/-- The events of one iteration of the `scrape_pages` loop. -/
def pageEvents (fetch : Nat → Option String) (jitter : Nat → ℚ) (i : Nat) :
    List Event :=
  match fetch i with
  | none => [.fetchPage i]
  | some html =>
    if html = "" then [.fetchPage i]
    else [.fetchPage i, .sleep (3 / 5 + jitter i * (6 / 5))]

/-- The event trace of a whole run. -/
def scrapeTrace (fetch : Nat → Option String) (jitter : Nat → ℚ)
    (start stop : Nat) : List Event :=
  (pageRange start stop).flatMap (pageEvents fetch jitter)

/-! ## Dict lemmas -/

theorem dictGet_dictSet_ne (d : Dict) (k k2 : String) (v : Val) (h : k2 ≠ k) :
    dictGet (dictSet d k v) k2 = dictGet d k2 := by
  induction d with
  | nil =>
    simp only [dictSet, dictGet]
    rw [if_neg (fun hh : k = k2 => h hh.symm)]
  | cons p rest ih =>
    obtain ⟨k1, v1⟩ := p
    by_cases h1 : k1 = k
    · simp only [dictSet, if_pos h1, dictGet]
      have h2 : k1 ≠ k2 := fun hh => h (hh.symm.trans h1)
      rw [if_neg h2, if_neg h2]
    · simp only [dictSet, if_neg h1, dictGet]
      by_cases h2 : k1 = k2
      · rw [if_pos h2, if_pos h2]
      · rw [if_neg h2, if_neg h2, ih]

theorem dgetStr_dictSet_ne (d : Dict) (k k2 : String) (v : Val) (h : k2 ≠ k) :
    dgetStr (dictSet d k v) k2 = dgetStr d k2 := by
  simp only [dgetStr, dictGet_dictSet_ne d k k2 v h]

theorem dictKeys_cons (k : String) (v : Val) (rest : Dict) :
    dictKeys ((k, v) :: rest) = k :: dictKeys rest := rfl

theorem dictKeys_dictSet_mem (d : Dict) (k : String) (v : Val)
    (h : k ∈ dictKeys d) : dictKeys (dictSet d k v) = dictKeys d := by
  induction d with
  | nil => simp [dictKeys] at h
  | cons p rest ih =>
    obtain ⟨k1, v1⟩ := p
    by_cases h1 : k1 = k
    · simp only [dictSet, if_pos h1, dictKeys_cons]
    · have hmem : k ∈ dictKeys rest := by
        rw [dictKeys_cons] at h
        rcases List.mem_cons.1 h with h2 | h2
        · exact absurd h2.symm h1
        · exact h2
      simp only [dictSet, if_neg h1, dictKeys_cons]
      rw [ih hmem]

/-! ## Field lemmas about `parse_movie_card` and `processCard` -/

theorem parse_movie_card_title (c : Node) :
    dgetStr (parse_movie_card c) "title" = extract_title c := rfl

theorem parse_movie_card_detail_url (c : Node) :
    dgetStr (parse_movie_card c) "detail_url" = extract_detail_url c := rfl

theorem parse_movie_card_image_url (c : Node) :
    dgetStr (parse_movie_card c) "image_url" = extract_image_url c := rfl

theorem parse_movie_card_keys (c : Node) :
    dictKeys (parse_movie_card c) =
      ["title", "image_url", "rating", "types", "detail_url"] := rfl

theorem withPage_keys (i : Nat) (c : Node) :
    dictKeys (withPage i c) =
      ["title", "image_url", "rating", "types", "detail_url", "page"] := rfl

theorem titleAltFallback_dgetStr_ne (c : Node) (d : Dict) (k : String)
    (hk : k ≠ "title") : dgetStr (titleAltFallback c d) k = dgetStr d k := by
  unfold titleAltFallback
  split
  · rfl
  · split
    · rfl
    · exact dgetStr_dictSet_ne d "title" k _ hk

theorem titleAltFallback_keys (c : Node) (d : Dict)
    (hd : "title" ∈ dictKeys d) :
    dictKeys (titleAltFallback c d) = dictKeys d := by
  unfold titleAltFallback
  split
  · rfl
  · split
    · rfl
    · exact dictKeys_dictSet_mem d "title" _ hd

theorem assembled_image_url (i : Nat) (c : Node) :
    dgetStr (assembled i c) "image_url" = extract_image_url c := by
  unfold assembled
  split
  · rw [titleAltFallback_dgetStr_ne c _ "image_url" (by decide)]
    rfl
  · rfl

theorem assembled_detail_url (i : Nat) (c : Node) :
    dgetStr (assembled i c) "detail_url" = extract_detail_url c := by
  unfold assembled
  split
  · rw [titleAltFallback_dgetStr_ne c _ "detail_url" (by decide)]
    rfl
  · rfl

theorem assembled_keys (i : Nat) (c : Node) :
    dictKeys (assembled i c) =
      ["title", "image_url", "rating", "types", "detail_url", "page"] := by
  unfold assembled
  split
  · rw [titleAltFallback_keys c _ (by rw [withPage_keys]; decide)]
    exact withPage_keys i c
  · exact withPage_keys i c

theorem processCard_spec (i : Nat) (c : Node) (d : Dict)
    (h : processCard i c = some d) :
    dgetStr d "title" ≠ "" ∧
    dgetStr d "image_url" = extract_image_url c ∧
    dgetStr d "detail_url" = extract_detail_url c ∧
    dictKeys d = ["title", "image_url", "rating", "types", "detail_url", "page"] := by
  unfold processCard at h
  by_cases ht : dgetStr (assembled i c) "title" = ""
  · rw [if_pos ht] at h
    exact absurd h (by simp)
  · rw [if_neg ht] at h
    have hd : assembled i c = d := Option.some.inj h
    subst hd
    exact ⟨ht, assembled_image_url i c, assembled_detail_url i c, assembled_keys i c⟩

/-! ## Pipeline lemmas -/

theorem scrapeGo_eq (fetch : Nat → Option String) (parse : String → Node) :
    ∀ (is : List Nat) (rows : List Dict),
      scrapeGo fetch parse is rows = rows ++ is.flatMap (pageContribution fetch parse) := by
  intro is
  induction is with
  | nil => intro rows; simp [scrapeGo]
  | cons i rest ih =>
    intro rows
    unfold scrapeGo
    cases hf : fetch i with
    | none => simp [ih, pageContribution, hf, List.flatMap_cons]
    | some html =>
      by_cases hh : html = ""
      · simp [hh, ih, pageContribution, hf, List.flatMap_cons]
      · simp only [if_neg hh]
        rw [ih]
        simp [pageContribution, hf, hh, List.flatMap_cons]

theorem scrape_pages_eq (fetch : Nat → Option String) (parse : String → Node)
    (start stop : Nat) :
    scrape_pages fetch parse start stop =
      (pageRange start stop).flatMap (pageContribution fetch parse) := by
  unfold scrape_pages
  rw [scrapeGo_eq]
  simp

theorem mem_scrape_pages (fetch : Nat → Option String) (parse : String → Node)
    (start stop : Nat) (d : Dict) (h : d ∈ scrape_pages fetch parse start stop) :
    ∃ i ∈ pageRange start stop, ∃ c, processCard i c = some d := by
  rw [scrape_pages_eq] at h
  obtain ⟨i, hi, hmem⟩ := List.mem_flatMap.1 h
  refine ⟨i, hi, ?_⟩
  unfold pageContribution at hmem
  split at hmem
  · simp at hmem
  · split at hmem
    · simp at hmem
    · unfold pageRecords at hmem
      obtain ⟨c, _, hc⟩ := List.mem_filterMap.1 hmem
      exact ⟨c, hc⟩

/-! ## Absoluteness of resolved URLs -/

theorem hasSchemeL_https_prefix (rest : List Char) :
    hasSchemeL ('h' :: 't' :: 't' :: 'p' :: 's' :: ':' :: rest) = true := by
  simp [hasSchemeL, looksScheme, isSchemeChar]

theorem hasScheme_BASE_append (u : String) : hasScheme (BASE ++ u) = true := by
  have hb : BASE.toList = ['h', 't', 't', 'p', 's', ':', '/', '/', 's', 's', 'r', '1',
      '.', 's', 'c', 'r', 'a', 'p', 'e', '.', 'c', 'e', 'n', 't', 'e', 'r'] := by decide
  have : (BASE ++ u).toList = BASE.toList ++ u.toList := rfl
  unfold hasScheme
  rw [this, hb]
  exact hasSchemeL_https_prefix _

theorem urljoin_BASE_hasScheme (u : String) : hasScheme (urljoin BASE u) = true := by
  unfold urljoin
  split
  · decide
  · split
    · next h2 => exact h2
    · split
      · have ht : String.mk (BASE.toList.takeWhile (fun c => c ≠ ':')) = "https" := by decide
        rw [ht, String.append_assoc]
        unfold hasScheme
        have hl : ("https" ++ (":" ++ u)).toList =
            'h' :: 't' :: 't' :: 'p' :: 's' :: ':' :: u.toList := rfl
        rw [hl]
        exact hasSchemeL_https_prefix _
      · split
        · exact hasScheme_BASE_append _
        · rw [String.append_assoc]
          exact hasScheme_BASE_append _

theorem extract_image_url_absolute (c : Node) :
    extract_image_url c = "" ∨ hasScheme (extract_image_url c) = true := by
  unfold extract_image_url
  split
  · exact Or.inl rfl
  · split
    · exact Or.inr (urljoin_BASE_hasScheme _)
    · exact Or.inl rfl

theorem extract_detail_url_absolute (c : Node) :
    extract_detail_url c = "" ∨ hasScheme (extract_detail_url c) = true := by
  unfold extract_detail_url
  split
  · exact Or.inl rfl
  · split
    · exact Or.inr (urljoin_BASE_hasScheme _)
    · exact Or.inl rfl

/-! ## Cascade lemmas -/

theorem rating_cascade_split (card : Node) :
    ∀ (pre : List Sel) (sel : Sel) (post : List Sel) (n : Node),
      (∀ s ∈ pre, selectOne card s = none) → selectOne card sel = some n →
      rating_cascade card (pre ++ sel :: post) = getTextStrip n := by
  intro pre
  induction pre with
  | nil =>
    intro sel post n _ hsel
    simp [rating_cascade, hsel]
  | cons s rest ih =>
    intro sel post n hpre hsel
    have hs : selectOne card s = none := hpre s (List.mem_cons_self s rest)
    have hrest : ∀ s2 ∈ rest, selectOne card s2 = none := fun s2 hs2 =>
      hpre s2 (List.mem_cons_of_mem s hs2)
    simp only [List.cons_append, rating_cascade, hs]
    exact ih sel post n hrest hsel

theorem selTexts_of_selectAll_nil (card : Node) (sel : Sel)
    (h : selectAll card sel = []) : selTexts card sel = [] := by
  simp [selTexts, h]

theorem collectTypes_cons_skip (card : Node) (sel : Sel) (rest : List Sel)
    (h : selTexts card sel = []) :
    collectTypes card (sel :: rest) [] = collectTypes card rest [] := by
  by_cases he : (selectAll card sel).isEmpty
  · simp [collectTypes, he]
  · simp [collectTypes, he, h]

theorem collectTypes_cons_win (card : Node) (sel : Sel) (rest : List Sel)
    (h : selTexts card sel ≠ []) :
    collectTypes card (sel :: rest) [] = selTexts card sel := by
  have hsa : (selectAll card sel).isEmpty = false := by
    rcases hsel : selectAll card sel with _ | ⟨a, l⟩
    · exact absurd (selTexts_of_selectAll_nil card sel hsel) h
    · simp
  simp [collectTypes, hsa, List.isEmpty_iff, h]

theorem collectTypes_split (card : Node) :
    ∀ (pre : List Sel) (sel : Sel) (post : List Sel),
      (∀ s ∈ pre, selTexts card s = []) → selTexts card sel ≠ [] →
      collectTypes card (pre ++ sel :: post) [] = selTexts card sel := by
  intro pre
  induction pre with
  | nil =>
    intro sel post _ hwin
    exact collectTypes_cons_win card sel post hwin
  | cons s rest ih =>
    intro sel post hpre hwin
    have hs : selTexts card s = [] := hpre s (List.mem_cons_self s rest)
    have hrest : ∀ s2 ∈ rest, selTexts card s2 = [] := fun s2 hs2 =>
      hpre s2 (List.mem_cons_of_mem s hs2)
    rw [List.cons_append, collectTypes_cons_skip card s _ hs]
    exact ih sel post hrest hwin

theorem extract_types_of_win (card : Node) (pre : List Sel) (sel : Sel)
    (post : List Sel) (hsplit : type_selectors = pre ++ sel :: post)
    (hpre : ∀ s ∈ pre, selTexts card s = []) (hwin : selTexts card sel ≠ []) :
    extract_types card = String.intercalate ";" (dedupFirst (cleanTypes (selTexts card sel))) := by
  unfold extract_types
  rw [hsplit, collectTypes_split card pre sel post hpre hwin]
  simp [List.isEmpty_iff, hwin]

/-! ## Deduplication and cleaning lemmas -/

theorem mem_dedupFirstGo (t : String) :
    ∀ (l seen : List String), t ∈ dedupFirstGo l seen → t ∈ l := by
  intro l
  induction l with
  | nil => intro seen h; simp [dedupFirstGo] at h
  | cons x xs ih =>
    intro seen h
    unfold dedupFirstGo at h
    by_cases hx : seen.contains x
    · rw [if_pos hx] at h
      exact List.mem_cons_of_mem x (ih _ h)
    · rw [if_neg hx] at h
      rcases List.mem_cons.1 h with h2 | h2
      · exact h2 ▸ List.mem_cons_self x xs
      · exact List.mem_cons_of_mem x (ih _ h2)

theorem mem_dedupFirst (t : String) (l : List String) (h : t ∈ dedupFirst l) :
    t ∈ l :=
  mem_dedupFirstGo t l [] h

theorem mem_cleanTypes (raw : List String) (t : String) (h : t ∈ cleanTypes raw) :
    (∃ s ∈ raw, t = normalizeType s) ∧ t ≠ "" ∧ ¬ strToLower t ∈ noiseDenylist := by
  unfold cleanTypes at h
  obtain ⟨s, hs, heq⟩ := List.mem_filterMap.1 h
  simp only at heq
  by_cases hc : (!(normalizeType s == "") && !(noiseDenylist.contains (strToLower (normalizeType s)))) = true
  · rw [if_pos hc] at heq
    have ht : normalizeType s = t := Option.some.inj heq
    subst ht
    rcases Bool.and_eq_true_iff.1 hc with ⟨h1, h2⟩
    refine ⟨⟨s, hs, rfl⟩, ?_, ?_⟩
    · intro hne
      rw [hne] at h1
      simp at h1
    · intro hmem
      have : noiseDenylist.contains (strToLower (normalizeType s)) = true :=
        List.elem_eq_true_of_mem hmem
      rw [this] at h2
      simp at h2
  · rw [if_neg hc] at heq
    exact absurd heq (by simp)

/-! ## Concrete fixtures

Small concrete documents and cards used to instantiate and to refute the
claims; each models a possible parse tree of a listing page. -/

/-- A page whose `.item` card carries only an `h2` title. -/
def wSoup : Node :=
  .elem "html" [] [.elem "div" [("class", "item")] [.elem "h2" [] [.text " Movie "]]]

/-- A fetcher that always succeeds with a non-empty body. -/
def wFetch : Nat → Option String := fun _ => some "x"

/-- A fetcher failing exactly on page 2. -/
def w1Fetch : Nat → Option String := fun i => if i = 2 then none else some "x"

/-- A parser returning `wSoup` for every body. -/
def wParse : String → Node := fun _ => wSoup

/-- The record `wSoup`'s card assembles on page 1. -/
def wRecord : Dict :=
  [ ("title", .str "Movie"), ("image_url", .str ""), ("rating", .str ""),
    ("types", .str ""), ("detail_url", .str ""), ("page", .int 1) ]

/-- A page whose `.item` card carries a title, a relative link and a relative
image source. -/
def w2Soup : Node :=
  .elem "html" []
    [.elem "div" [("class", "item")]
      [ .elem "h2" [] [.text "M2"],
        .elem "a" [("href", "/detail/7")] [],
        .elem "img" [("src", "/img/7.jpg")] [] ]]

/-- A parser returning `w2Soup` for every body. -/
def w2Parse : String → Node := fun _ => w2Soup

/-- The record `w2Soup`'s card assembles on page 1: both URLs base-resolved. -/
def w2Record : Dict :=
  [ ("title", .str "M2"),
    ("image_url", .str "https://ssr1.scrape.center/img/7.jpg"),
    ("rating", .str ""), ("types", .str ""),
    ("detail_url", .str "https://ssr1.scrape.center/detail/7"),
    ("page", .int 1) ]

/-- A card whose `.types` nodes read Drama, Action, Drama. -/
def cardT : Node :=
  .elem "div" []
    [ .elem "p" [("class", "types")] [.text "Drama"],
      .elem "p" [("class", "types")] [.text "Action"],
      .elem "p" [("class", "types")] [.text "Drama"] ]

/-- A card whose only `.types` text is the year string 1999. -/
def cardYear1999 : Node :=
  .elem "div" [] [.elem "p" [("class", "types")] [.text "1999"]]

/-- A card whose only `.types` text is the denylisted year string 2020. -/
def cardYear2020 : Node :=
  .elem "div" [] [.elem "p" [("class", "types")] [.text "2020"]]

/-- A string of 41 CJK ideographs — longer than the heuristic's length
bound of 40. -/
def cjk41 : String :=
  "一二三四五六七八九十一二三四五六七八九十一二三四五六七八九十一二三四五六七八九十一"

/-- A card with no types-selector match whose single span holds `cjk41`. -/
def cardLongCJK : Node :=
  .elem "div" [] [.elem "span" [] [.text cjk41]]

/-- A card whose `.types` node has empty text while `.genre` reads Drama. -/
def cardC8 : Node :=
  .elem "div" []
    [ .elem "p" [("class", "types")] [],
      .elem "p" [("class", "genre")] [.text "Drama"] ]

/-- A `.score` node with no text at all. -/
def scoreSpan9 : Node := .elem "span" [("class", "score")] []

/-- A card whose `.score` node is empty but which carries `data-score`. -/
def cardC9 : Node := .elem "div" [("data-score", "9.0")] [scoreSpan9]

/-- A `.score` node reading ` 9.5 `. -/
def w9Span : Node := .elem "span" [("class", "score")] [.text " 9.5 "]

/-- A card whose `.score` node reads ` 9.5 `. -/
def w9Card : Node := .elem "div" [] [w9Span]

/-- An image node with an `alt` title. -/
def imgNode10 : Node := .elem "img" [("alt", "T")] []

/-- An anchor node with an `href` and a `title`. -/
def aNode10 : Node := .elem "a" [("href", "/d/1"), ("title", "T")] []

/-- A `div` listing holding exactly one image and one anchor. -/
def innerDiv : Node := .elem "div" [] [imgNode10, aNode10]

/-- A `div` whose only child is `innerDiv`. -/
def outerDiv : Node := .elem "div" [] [innerDiv]

/-- A page on which no card selector matches, leaving the heuristic scan. -/
def soup10 : Node := .elem "html" [] [outerDiv]

/-! ## The claims -/

/-- C1: over an inclusive page range, a failed fetch contributes no records
and the run continues — the final list is exactly the concatenation, in page
order, of each page's contribution (`pageContribution`, which is `[]` on
fetch failure and the page's records, in container-discovery order,
otherwise); a fetch failure is never fatal to the run. -/
theorem scrape_pages_fetch_failure_isolation (fetch : Nat → Option String)
    (parse : String → Node) (start stop : Nat) :
    scrape_pages fetch parse start stop =
      (pageRange start stop).flatMap (pageContribution fetch parse) ∧
    ∀ i, fetch i = none → pageContribution fetch parse i = [] := by
  refine ⟨scrape_pages_eq fetch parse start stop, ?_⟩
  intro i hi
  unfold pageContribution
  rw [hi]

/-- Witness for C1: with a fetcher failing exactly on page 2 of the range
1–3, the run still produces the flattened page contributions and page 2
contributes nothing. -/
theorem scrape_pages_fetch_failure_isolation_witness :
    scrape_pages w1Fetch wParse 1 3 =
      (pageRange 1 3).flatMap (pageContribution w1Fetch wParse) ∧
    pageContribution w1Fetch wParse 2 = [] :=
  ⟨(scrape_pages_fetch_failure_isolation w1Fetch wParse 1 3).1,
   (scrape_pages_fetch_failure_isolation w1Fetch wParse 1 3).2 2 rfl⟩

/-- C2: every record in the accumulated output of `scrape_pages` has a
non-empty title — a container whose title stays empty through the cascade and
the image-alt fallback is never appended. -/
theorem scrape_records_title_nonempty (fetch : Nat → Option String)
    (parse : String → Node) (start stop : Nat) (d : Dict)
    (h : d ∈ scrape_pages fetch parse start stop) : dgetStr d "title" ≠ "" := by
  obtain ⟨i, _, c, hc⟩ := mem_scrape_pages fetch parse start stop d h
  exact (processCard_spec i c d hc).1

/-- Witness for C2 at a concrete run emitting one record. -/
theorem scrape_records_title_nonempty_witness :
    wRecord ∈ scrape_pages wFetch wParse 1 1 ∧ dgetStr wRecord "title" ≠ "" :=
  ⟨by decide, scrape_records_title_nonempty wFetch wParse 1 1 wRecord (by decide)⟩

/-- C3 counterexample: after a page whose fetch fails, the loop's `continue`
skips `time.sleep`, so the iteration's trace holds no sleep event at all —
refuting the claim that the pipeline waits after every page, success or
failure. -/
theorem politeness_delay_after_failure_counterexample :
    pageEvents (fun _ => none) (fun _ => 0) 1 = [Event.fetchPage 1] ∧
    ¬ ∃ d, Event.sleep d ∈ pageEvents (fun _ => none) (fun _ => 0) 1 := by
  refine ⟨rfl, ?_⟩
  rintro ⟨d, hd⟩
  have h2 : Event.sleep d ∈ [Event.fetchPage 1] := hd
  rcases List.mem_cons.1 h2 with h3 | h3
  · exact Event.noConfusion h3
  · exact absurd h3 (List.not_mem_nil _)

/-- C3 amended: the politeness delay — the fixed base 0.6 plus the bounded
random jitter `random.random() * 1.2`, hence in [0.6, 1.8) — is waited
exactly after pages whose fetch returned a truthy body; a page whose fetch
failed (or returned an empty body) is skipped with no delay. -/
theorem politeness_delay_iff_truthy_fetch (fetch : Nat → Option String)
    (jitter : Nat → ℚ) (i : Nat) (h0 : 0 ≤ jitter i) (h1 : jitter i < 1) :
    (∀ html, fetch i = some html → html ≠ "" →
      pageEvents fetch jitter i =
        [Event.fetchPage i, Event.sleep (3 / 5 + jitter i * (6 / 5))] ∧
      3 / 5 ≤ 3 / 5 + jitter i * (6 / 5) ∧ 3 / 5 + jitter i * (6 / 5) < 9 / 5)
    ∧ (fetch i = none → pageEvents fetch jitter i = [Event.fetchPage i])
    ∧ (fetch i = some "" → pageEvents fetch jitter i = [Event.fetchPage i]) := by
  refine ⟨?_, ?_, ?_⟩
  · intro html hf hne
    refine ⟨?_, ?_, ?_⟩
    · simp [pageEvents, hf, hne]
    · have hj : 0 ≤ jitter i * (6 / 5) := mul_nonneg h0 (by norm_num)
      linarith
    · have hj : jitter i * (6 / 5) < 1 * (6 / 5) :=
        mul_lt_mul_of_pos_right h1 (by norm_num)
      linarith
  · intro hf
    simp [pageEvents, hf]
  · intro hf
    simp [pageEvents, hf]

/-- Witness for C3 amended, at jitter one half on a successful page. -/
theorem politeness_delay_iff_truthy_fetch_witness :
    pageEvents (fun _ => some "x") (fun _ => (1 : ℚ) / 2) 1 =
      [Event.fetchPage 1, Event.sleep (3 / 5 + (1 : ℚ) / 2 * (6 / 5))] ∧
    (3 : ℚ) / 5 ≤ 3 / 5 + (1 : ℚ) / 2 * (6 / 5) ∧
    3 / 5 + (1 : ℚ) / 2 * (6 / 5) < 9 / 5 :=
  (politeness_delay_iff_truthy_fetch (fun _ => some "x") (fun _ => (1 : ℚ) / 2) 1
    (by norm_num) (by norm_num)).1 "x" rfl (by decide)

/-- C4: the claim matches line 119's comment (candidates must contain
CJK/alphabetic text AND be short), but line 120's condition
`txt and 1 <= len(txt) <= 40 and any(isalpha) or any(CJK)` groups the `or`
outside, so a 41-ideograph candidate is accepted, scanned into `types_found`
and emitted — the length bound is escaped. -/
theorem types_heuristic_accepts_overlong_cjk :
    typeHeuristicAccepts cjk41 = true ∧ cjk41.length = 41 ∧
    heuristicTypes cardLongCJK = [cjk41] ∧ extract_types cardLongCJK = cjk41 :=
  ⟨rfl, rfl, rfl, rfl⟩

/-- C5 counterexample: the denylist is the literal `['new', '2020', '2021']`,
not all bare 4-digit years — a `.types` entry `1999` survives cleaning and
appears in the joined output (while `2020` is indeed dropped). -/
theorem year_token_1999_survives_denylist :
    extract_types cardYear1999 = "1999" ∧ extract_types cardYear2020 = "" :=
  ⟨rfl, rfl⟩

/-- C5 amended: every entry of the cleaned, deduplicated types list is a
normalised (newline-replaced, stripped) input entry, is non-empty, and its
lowercase form avoids the hardcoded denylist, which is exactly
`["new", "2020", "2021"]` — not all bare 4-digit year strings. -/
theorem types_clean_denylist_exact (raw : List String) (t : String)
    (h : t ∈ dedupFirst (cleanTypes raw)) :
    (∃ s ∈ raw, t = normalizeType s) ∧ t ≠ "" ∧
    ¬ strToLower t ∈ noiseDenylist ∧ noiseDenylist = ["new", "2020", "2021"] := by
  have h2 := mem_cleanTypes raw t (mem_dedupFirst t (cleanTypes raw) h)
  exact ⟨h2.1, h2.2.1, h2.2.2, rfl⟩

/-- Witness for C5 amended at the singleton input Drama. -/
theorem types_clean_denylist_exact_witness :
    "Drama" ∈ dedupFirst (cleanTypes ["Drama"]) ∧
    ((∃ s ∈ ["Drama"], "Drama" = normalizeType s) ∧ "Drama" ≠ "" ∧
      ¬ strToLower "Drama" ∈ noiseDenylist ∧ noiseDenylist = ["new", "2020", "2021"]) :=
  ⟨by decide, types_clean_denylist_exact ["Drama"] "Drama" (by decide)⟩

/-- C6: in every emitted record, a non-empty `image_url` or `detail_url`
carries a URL scheme — it was resolved against `BASE` by `urljoin`, so it is
absolute, never a relative path. -/
theorem scrape_record_urls_absolute (fetch : Nat → Option String)
    (parse : String → Node) (start stop : Nat) (d : Dict)
    (h : d ∈ scrape_pages fetch parse start stop) :
    (dgetStr d "image_url" ≠ "" → hasScheme (dgetStr d "image_url") = true) ∧
    (dgetStr d "detail_url" ≠ "" → hasScheme (dgetStr d "detail_url") = true) := by
  obtain ⟨i, _, c, hc⟩ := mem_scrape_pages fetch parse start stop d h
  obtain ⟨-, himg, hdet, -⟩ := processCard_spec i c d hc
  constructor
  · intro hne
    rw [himg] at hne ⊢
    rcases extract_image_url_absolute c with h0 | h0
    · exact absurd h0 hne
    · exact h0
  · intro hne
    rw [hdet] at hne ⊢
    rcases extract_detail_url_absolute c with h0 | h0
    · exact absurd h0 hne
    · exact h0

/-- Witness for C6 at a record whose markup supplied relative paths. -/
theorem scrape_record_urls_absolute_witness :
    w2Record ∈ scrape_pages wFetch w2Parse 1 1 ∧
    ((dgetStr w2Record "image_url" ≠ "" → hasScheme (dgetStr w2Record "image_url") = true) ∧
     (dgetStr w2Record "detail_url" ≠ "" → hasScheme (dgetStr w2Record "detail_url") = true)) :=
  ⟨by decide, scrape_record_urls_absolute wFetch w2Parse 1 1 w2Record (by decide)⟩

/-- C7 counterexample: the map handed to the accumulator has key order
`title, image_url, rating, types, detail_url, page` — `page` is assigned
after the five-key literal, so the claimed order (the CSV schema order
`csv_fieldnames`, with `page` fifth) is not the order of the emitted map. -/
theorem record_key_order_counterexample :
    (scrape_pages wFetch wParse 1 1).map dictKeys =
      [["title", "image_url", "rating", "types", "detail_url", "page"]] ∧
    ¬ ["title", "image_url", "rating", "types", "detail_url", "page"] = csv_fieldnames :=
  ⟨rfl, by decide⟩

/-- C7 amended: every map handed to the accumulator contains exactly the six
keys `title, image_url, rating, types, detail_url, page` — in that insertion
order, with `page` last — and hence every key of the Writer's schema
`csv_fieldnames` is present in every record; the schema order with `page`
fifth is the Writer's field-name order, not the map's. -/
theorem scrape_record_keys_exact (fetch : Nat → Option String)
    (parse : String → Node) (start stop : Nat) (d : Dict)
    (h : d ∈ scrape_pages fetch parse start stop) :
    dictKeys d = ["title", "image_url", "rating", "types", "detail_url", "page"] ∧
    ∀ k ∈ csv_fieldnames, k ∈ dictKeys d := by
  obtain ⟨i, _, c, hc⟩ := mem_scrape_pages fetch parse start stop d h
  have hk := (processCard_spec i c d hc).2.2.2
  refine ⟨hk, ?_⟩
  rw [hk]
  decide

/-- Witness for C7 amended at a concrete emitted record. -/
theorem scrape_record_keys_exact_witness :
    wRecord ∈ scrape_pages wFetch wParse 1 1 ∧
    dictKeys wRecord = ["title", "image_url", "rating", "types", "detail_url", "page"] ∧
    ∀ k ∈ csv_fieldnames, k ∈ dictKeys wRecord :=
  ⟨by decide, (scrape_record_keys_exact wFetch wParse 1 1 wRecord (by decide)).1,
   (scrape_record_keys_exact wFetch wParse 1 1 wRecord (by decide)).2⟩

/-- C8 counterexample: the first types selector `.types` matches a node, yet
because that node's text is empty the loop does not break and the later
selector `.genre` supplies the output — refuting "the first selector that
matches at least one node wins". -/
theorem types_selector_empty_text_falls_through :
    type_selectors.head? = some [⟨none, ["types"], []⟩] ∧
    (selectAll cardC8 [⟨none, ["types"], []⟩]).length = 1 ∧
    selTexts cardC8 [⟨none, ["types"], []⟩] = [] ∧
    extract_types cardC8 = "Drama" :=
  ⟨rfl, rfl, rfl, rfl⟩

/-- C8 amended: the winning types selector is the first whose matched nodes
yield at least one non-empty text; all its nodes' non-empty texts are
collected, cleaned, deduplicated preserving first-seen order and joined with
the semicolon — so Drama, Action, Drama yields Drama;Action. -/
theorem types_winning_selector_collects_all (card : Node) (pre : List Sel)
    (sel : Sel) (post : List Sel) (hsplit : type_selectors = pre ++ sel :: post)
    (hpre : ∀ s ∈ pre, selTexts card s = []) (hwin : selTexts card sel ≠ []) :
    extract_types card =
      String.intercalate ";" (dedupFirst (cleanTypes (selTexts card sel))) ∧
    String.intercalate ";" (dedupFirst (cleanTypes ["Drama", "Action", "Drama"])) =
      "Drama;Action" :=
  ⟨extract_types_of_win card pre sel post hsplit hpre hwin, by decide⟩

/-- Witness for C8 amended at the Drama, Action, Drama card. -/
theorem types_winning_selector_collects_all_witness :
    selTexts cardT [⟨none, ["types"], []⟩] = ["Drama", "Action", "Drama"] ∧
    extract_types cardT = "Drama;Action" :=
  ⟨by decide,
   ((types_winning_selector_collects_all cardT [] [⟨none, ["types"], []⟩]
      [ [⟨none, ["genre"], []⟩], [⟨none, ["genres"], []⟩],
        [⟨none, ["categories"], []⟩], [⟨none, ["meta"], []⟩],
        [⟨none, ["info"], []⟩, ⟨none, ["tags"], []⟩] ]
      rfl (by simp) (by decide)).1).trans (by decide)⟩

/-- C9 counterexample: the first rating selector `.score` matches a node
whose text is empty; the cascade breaks there with the empty string and the
`data-score` fallback is applied anyway — refuting "the fallback is applied
only when none of the rating selectors match any node". -/
theorem rating_fallback_despite_selector_match :
    rating_selectors.head? = some [⟨none, ["score"], []⟩] ∧
    (selectOne cardC9 [⟨none, ["score"], []⟩]).isSome = true ∧
    rating_cascade cardC9 rating_selectors = "" ∧
    extract_rating cardC9 = "9.0" :=
  ⟨rfl, rfl, rfl, rfl⟩

/-- C9 amended: the rating is the text of the node found by the first
matching selector, and the `data-score` fallback is applied exactly when the
cascade's result is empty — i.e. when no selector matched, or when the first
matching node's text is empty. -/
theorem rating_first_match_then_attr_fallback (card : Node) (pre : List Sel)
    (sel : Sel) (post : List Sel) (n : Node)
    (hsplit : rating_selectors = pre ++ sel :: post)
    (hpre : ∀ s ∈ pre, selectOne card s = none)
    (hsel : selectOne card sel = some n) :
    extract_rating card =
      if getTextStrip n = "" then (getAttr card "data-score").getD ""
      else getTextStrip n := by
  unfold extract_rating
  rw [hsplit, rating_cascade_split card pre sel post n hpre hsel]

/-- Witness for C9 amended at a card whose `.score` node reads ` 9.5 `. -/
theorem rating_first_match_then_attr_fallback_witness :
    extract_rating w9Card = "9.5" :=
  (rating_first_match_then_attr_fallback w9Card [] [⟨none, ["score"], []⟩]
    [ [⟨none, ["rating"], []⟩],
      [⟨none, ["en"], []⟩, ⟨none, ["score"], []⟩],
      [⟨none, ["info"], []⟩, ⟨none, ["score"], []⟩],
      [⟨none, ["score-number"], []⟩] ]
    w9Span rfl (by simp) rfl).trans (by decide)

/-- C10: on a page where no card selector matches, the heuristic scan accepts
every `article`/`li`/`div` with both an `img` and an `a` descendant and does
not exclude a node whose ancestor was already accepted: here it returns both
a container and its own descendant, and the single listing produces two
records. -/
theorem heuristic_card_scan_nested_containers :
    selectCards soup10 card_selectors = [] ∧
    locateCards soup10 = [outerDiv, innerDiv] ∧
    innerDiv ∈ descendants outerDiv ∧
    (pageRecords (fun _ => soup10) "x" 1).length = 2 := by
  refine ⟨rfl, rfl, ?_, rfl⟩
  have h : descendants outerDiv = [innerDiv, imgNode10, aNode10] := rfl
  rw [h]
  exact List.mem_cons_self _ _

end MovieCrawler
